import Mathlib

/-!
Verification development for the typescript-rpc repository.

Server side (`LocalTopicImpl` in packages/core/src/local.ts and the
identical `ServerTopicImpl` in src/rpc.ts): per-topic session bookkeeping
keyed by `JSON.stringify(params)`, with `subscribeSession`,
`unsubscribeSession` and `trigger`.

Client side (`RpcClientImpl` in the client core source): orchestration of
a subscription registry (`RemoteSubscriptions`), an HTTP channel
(`HttpClient`) and a WebSocket connection (`WebSocketConnection`).  The
registry, HTTP and socket classes themselves are not among the sources at
hand; they are modelled from the specification (each such definition is
marked `Modelled from the spec:`).  The orchestration functions follow the
`RpcClientImpl` source.  Network outcomes (success or failure of an HTTP
request or of a socket connect) are inputs of the model, so a single
function covers every interleaving of outcomes.

Sessions, consumers and data values are identified by natural numbers;
serialized parameter keys are strings.
-/

namespace PushRpc

/-- A server-side RPC session, identified opaquely. -/
abbrev Session := Nat

/-- A subscription key: `JSON.stringify(params)` (together with the item
name where the client keys by both). -/
abbrev Key := String

/-- A client-side consumer callback, identified by reference. -/
abbrev ConsumerId := Nat

/-- An error carried by either channel (the numeric `code` of the error
envelope). -/
abbrev Err := Nat

/-! ### Association-list operations mirroring a JS object used as a map -/

/-- Lookup in a JS object modelled as an association list
(`obj[key]`, `undefined` becoming `none`). -/
def lookupKey {α : Type} : List (Key × α) → Key → Option α
  | [], _ => none
  | (k, v) :: rest, key => if k = key then some v else lookupKey rest key

/-- `obj[key] = v` on a JS object modelled as an association list. -/
def setKey {α : Type} : List (Key × α) → Key → α → List (Key × α)
  | [], key, v => [(key, v)]
  | (k, w) :: rest, key, v =>
      if k = key then (k, v) :: rest else (k, w) :: setKey rest key v

/-- `delete obj[key]` on a JS object modelled as an association list. -/
def removeKey {α : Type} : List (Key × α) → Key → List (Key × α)
  | [], _ => []
  | (k, w) :: rest, key =>
      if k = key then rest else (k, w) :: removeKey rest key

/-! ### JS array primitives used by the server topic code -/

/-- JS `Array.prototype.indexOf`: index of the first occurrence, `-1` if
absent. -/
def jsIndexOf {α : Type} [DecidableEq α] (l : List α) (x : α) : Int :=
  match l.indexOf? x with
  | some i => (i : Int)
  | none => -1

/-- JS `Array.prototype.splice(start, 1)`: a negative `start` counts from
the end (`max(len + start, 0)`); removes at most one element at the
resulting position. -/
def jsSplice1 {α : Type} (l : List α) (start : Int) : List α :=
  let len : Int := l.length
  let s : Nat := (if start < 0 then max (len + start) 0 else min start len).toNat
  l.take s ++ l.drop (s + 1)

/-! ### Server-side topic (`LocalTopicImpl` / `ServerTopicImpl`) -/

/-- The `subscribedSessions` field: a JS object mapping a serialized
params key to the array of subscribed sessions. -/
abbrev SubscribedSessions := List (Key × List Session)

/-- A `Data` frame sent to a session
(`session.send(MessageType.Data, id, this.name, params, data)`). -/
structure Frame (D : Type) where
  session : Session
  topicName : String
  params : Key
  data : D
  deriving DecidableEq, Repr

/-- `LocalTopicImpl.subscribeSession` (local.ts) / `ServerTopicImpl.subscribe`
(rpc.ts): look up the session list for the key; if the session is already
present, return (no double subscribe); otherwise push it, store the list,
and if a supplier exists, send the supplier's data for this session's
context as a `Data` frame. -/
def subscribeSession {D : Type} (st : SubscribedSessions)
    (supplier : Option (Key → Session → D)) (name : String)
    (sess : Session) (key : Key) : SubscribedSessions × List (Frame D) :=
  let sessions := (lookupKey st key).getD []
  if 0 ≤ jsIndexOf sessions sess then (st, [])
  else
    let sessions' := sessions ++ [sess]
    let st' := setKey st key sessions'
    match supplier with
    | some f => (st', [⟨sess, name, key, f key sess⟩])
    | none => (st', [])

/-- `LocalTopicImpl.unsubscribeSession` (local.ts) /
`ServerTopicImpl.unsubscribe` (rpc.ts): if no list is stored for the key,
return; otherwise `splice(indexOf(session), 1)` and delete the key when
the list became empty. -/
def unsubscribeSession (st : SubscribedSessions) (sess : Session) (key : Key) :
    SubscribedSessions :=
  match lookupKey st key with
  | none => st
  | some sessions =>
      let sessions' := jsSplice1 sessions (jsIndexOf sessions sess)
      if sessions'.length = 0 then removeKey st key
      else setKey st key sessions'

/-- One iteration of the `forEach` body of `LocalTopicImpl.trigger` /
`ServerTopicImpl.trigger`, over the subscribed sessions of the key: each
session is sent either the supplied data or the supplier's result for that
session's context; also counts supplier invocations. -/
def triggerLoop {D : Type} (supplier : Key → Session → D) (name : String)
    (key : Key) (suppliedData : Option D) :
    List Session → List (Frame D) × Nat
  | [] => ([], 0)
  | sess :: rest =>
      let (data, calls) :=
        match suppliedData with
        | some d => (d, 0)
        | none => (supplier key sess, 1)
      let (frames, totalCalls) := triggerLoop supplier name key suppliedData rest
      (⟨sess, name, key, data⟩ :: frames, calls + totalCalls)

/-- `LocalTopicImpl.trigger` / `ServerTopicImpl.trigger`: iterate over the
sessions subscribed to `JSON.stringify(params)` (an empty list when the
key is absent), sending each one a `Data` frame. -/
def trigger {D : Type} (st : SubscribedSessions) (supplier : Key → Session → D)
    (name : String) (key : Key) (suppliedData : Option D) :
    List (Frame D) × Nat :=
  triggerLoop supplier name key suppliedData ((lookupKey st key).getD [])

/-! ### Client-side subscription registry -/

/-- A per-key subscription record: the ordered multiset of consumers and
the last observed value. -/
structure SubRecord (V : Type) where
  consumers : List ConsumerId
  lastValue : Option V
  deriving DecidableEq, Repr

/-- Modelled from the spec: the `RemoteSubscriptions` registry (spec
§3/§4.1), whose source is not among the files at hand.  Holds the per-key
records and the optional external cache adapter's store (write-through). -/
structure Registry (V : Type) where
  records : List (Key × SubRecord V)
  cache : List (Key × V)
  deriving DecidableEq, Repr

/-- An observable action of the client core, in order of occurrence. -/
inductive Event (V : Type) where
  | deliver (c : ConsumerId) (v : V)
  | httpSubscribe (k : Key)
  | httpUnsubscribe (k : Key)
  | connectInitiated
  | loggedError
  deriving DecidableEq, Repr

/-- Modelled from the spec: `RemoteSubscriptions.getCached` (§4.1):
returns `lastValue` if present; otherwise consults the optional external
cache adapter; never performs I/O. -/
def getCached {V : Type} (reg : Registry V) (k : Key) : Option V :=
  match lookupKey reg.records k with
  | some rec =>
      match rec.lastValue with
      | some v => some v
      | none => lookupKey reg.cache k
  | none => lookupKey reg.cache k

/-- Modelled from the spec: `RemoteSubscriptions.subscribe` (§4.1):
ensures a record exists for the key, appends the consumer (duplicates
count), sets `lastValue` to the initial value, invokes the consumer with
it, and writes through to the cache adapter. -/
def regSubscribe {V : Type} (reg : Registry V) (init : V) (k : Key)
    (c : ConsumerId) : Registry V × List (Event V) :=
  let rec0 := (lookupKey reg.records k).getD ⟨[], none⟩
  let rec1 : SubRecord V := ⟨rec0.consumers ++ [c], some init⟩
  (⟨setKey reg.records k rec1, setKey reg.cache k init⟩, [.deliver c init])

/-- Removal of exactly one occurrence, by identity (used by the registry's
unsubscribe). -/
def removeOneConsumer : List ConsumerId → ConsumerId → List ConsumerId
  | [], _ => []
  | x :: xs, c => if x = c then xs else x :: removeOneConsumer xs c

/-- Modelled from the spec: `RemoteSubscriptions.unsubscribe` (§4.1):
removes exactly one occurrence of the consumer (no-op when absent);
returns `true` iff the record is now empty, removing it in that case. -/
def regUnsubscribe {V : Type} (reg : Registry V) (k : Key) (c : ConsumerId) :
    Registry V × Bool :=
  match lookupKey reg.records k with
  | none => (reg, false)
  | some rec =>
      let consumers' := removeOneConsumer rec.consumers c
      if consumers'.isEmpty then (⟨removeKey reg.records k, reg.cache⟩, true)
      else (⟨setKey reg.records k ⟨consumers', rec.lastValue⟩, reg.cache⟩, false)

/-- Modelled from the spec: `RemoteSubscriptions.consume` (§4.1): if a
record exists, update `lastValue`, write through the cache, and invoke
every current consumer in insertion order; otherwise discard silently. -/
def regConsume {V : Type} (reg : Registry V) (k : Key) (d : V) :
    Registry V × List (Event V) :=
  match lookupKey reg.records k with
  | none => (reg, [])
  | some rec =>
      (⟨setKey reg.records k ⟨rec.consumers, some d⟩, setKey reg.cache k d⟩,
       rec.consumers.map (fun c => .deliver c d))

/-- Modelled from the spec: `RemoteSubscriptions.getAllSubscriptions`
(§4.1): snapshot of `(key, consumers)` used by the resubscribe pass. -/
def getAllSubscriptions {V : Type} (reg : Registry V) :
    List (Key × List ConsumerId) :=
  reg.records.map (fun p => (p.1, p.2.consumers))

/-! ### Client core (`RpcClientImpl`) -/

/-- Modelled from the spec: the `WebSocketConnection` state (§4.3 state
machine), collapsed to the three states the claims mention. -/
inductive ConnState where
  | disconnected
  | connected
  | closed
  deriving DecidableEq, Repr

/-- The state one `RpcClientImpl` owns: its registry and its connection. -/
structure ClientState (V : Type) where
  registry : Registry V
  connection : ConnState
  deriving DecidableEq, Repr

/-- `RpcClientImpl.subscribe`: deliver the cached value synchronously if
present; if push delivery is enabled, initiate `connect()` with its
failure ignored (`.catch(() => {})` in the source); await the HTTP
subscribe; on success register via the registry's subscribe (which
delivers the initial value), on failure leave the registry untouched and
propagate the error.  `connectResult` and `httpResult` are the network
outcomes of the two requests. -/
def clientSubscribe {V : Type} (st : ClientState V) (pushEnabled : Bool)
    (connectResult : Except Err Unit) (httpResult : Except Err V)
    (k : Key) (c : ConsumerId) :
    ClientState V × List (Event V) × Except Err Unit :=
  let cachedEvents : List (Event V) :=
    match getCached st.registry k with
    | some v => [.deliver c v]
    | none => []
  let connectEvents : List (Event V) :=
    if pushEnabled then [.connectInitiated] else []
  let connection' :=
    if pushEnabled then
      match st.connection, connectResult with
      | ConnState.disconnected, .ok _ => ConnState.connected
      | s, _ => s
    else st.connection
  match httpResult with
  | .error e =>
      (⟨st.registry, connection'⟩,
       cachedEvents ++ connectEvents ++ [.httpSubscribe k], .error e)
  | .ok v =>
      let (reg', subEvents) := regSubscribe st.registry v k c
      (⟨reg', connection'⟩,
       cachedEvents ++ connectEvents ++ [.httpSubscribe k] ++ subEvents, .ok ())

/-- Modelled from the spec: `HttpClient.unsubscribe` (§4.2) has
fire-and-forget semantics — a transport failure is logged, not surfaced
to the caller. -/
def httpUnsubscribeEvents {V : Type} (k : Key) :
    Except Err Unit → List (Event V)
  | .ok _ => [.httpUnsubscribe k]
  | .error _ => [.httpUnsubscribe k, .loggedError]

/-- `RpcClientImpl.unsubscribe`: ask the registry to drop the consumer;
iff it reports that no subscriptions are left for the key, issue the HTTP
unsubscribe (whose own failures are logged and swallowed, see
`httpUnsubscribeEvents`). -/
def clientUnsubscribe {V : Type} (st : ClientState V)
    (httpResult : Except Err Unit) (k : Key) (c : ConsumerId) :
    ClientState V × List (Event V) × Except Err Unit :=
  let (reg', noSubscriptionsLeft) := regUnsubscribe st.registry k c
  if noSubscriptionsLeft then
    (⟨reg', st.connection⟩, httpUnsubscribeEvents k httpResult, .ok ())
  else
    (⟨reg', st.connection⟩, [], .ok ())

/-- The failure branch of `RpcClientImpl.resubscribe`: detach every
consumer of the snapshot by calling the registry's unsubscribe once per
consumer. -/
def unsubAllConsumers {V : Type} (reg : Registry V) (k : Key) :
    List ConsumerId → Registry V
  | [] => reg
  | c :: cs => unsubAllConsumers (regUnsubscribe reg k c).1 k cs

/-- The loop of `RpcClientImpl.resubscribe` over the registry snapshot:
for each key issue an HTTP subscribe; on success feed the value through
the registry's consume, on failure detach every snapshot consumer.
`outcomes` gives each key's HTTP subscribe outcome. -/
def resubLoop {V : Type} (outcomes : Key → Except Err V) (reg : Registry V) :
    List (Key × List ConsumerId) → Registry V × List (Event V)
  | [] => (reg, [])
  | (k, consumers) :: rest =>
      let (reg1, evs1) :=
        match outcomes k with
        | .ok v =>
            let (r, es) := regConsume reg k v
            (r, Event.httpSubscribe k :: es)
        | .error _ =>
            (unsubAllConsumers reg k consumers, [Event.httpSubscribe k])
      let (reg2, evs2) := resubLoop outcomes reg1 rest
      (reg2, evs1 ++ evs2)

/-- `RpcClientImpl.resubscribe`: run the loop over the snapshot of all
subscriptions taken when the pass starts. -/
def clientResubscribe {V : Type} (st : ClientState V)
    (outcomes : Key → Except Err V) : ClientState V × List (Event V) :=
  let (reg', evs) := resubLoop outcomes st.registry (getAllSubscriptions st.registry)
  (⟨reg', st.connection⟩, evs)

/-- `RpcClientImpl.close`: delegates to `WebSocketConnection.close`
(modelled from the spec §4.3: the terminal `Closed` state); the registry
is not touched. -/
def clientClose {V : Type} (st : ClientState V) : ClientState V :=
  ⟨st.registry, ConnState.closed⟩

/-! ### Association-list lemmas -/

@[simp] theorem lookupKey_nil {α : Type} (key : Key) :
    lookupKey ([] : List (Key × α)) key = none := rfl

@[simp] theorem lookupKey_cons {α : Type} (k : Key) (v : α)
    (rest : List (Key × α)) (key : Key) :
    lookupKey ((k, v) :: rest) key
      = if k = key then some v else lookupKey rest key := rfl

@[simp] theorem lookupKey_setKey_self {α : Type} (m : List (Key × α))
    (key : Key) (v : α) : lookupKey (setKey m key v) key = some v := by
  induction m with
  | nil => simp [setKey]
  | cons hd tl ih =>
      obtain ⟨k, w⟩ := hd
      by_cases h : k = key <;> simp [setKey, h, ih]

@[simp] theorem lookupKey_setKey_other {α : Type} (m : List (Key × α))
    (key key' : Key) (v : α) (h : key ≠ key') :
    lookupKey (setKey m key v) key' = lookupKey m key' := by
  induction m with
  | nil => simp [setKey, lookupKey, h]
  | cons hd tl ih =>
      obtain ⟨k, w⟩ := hd
      by_cases hk : k = key
      · subst hk; simp [setKey, lookupKey, h]
      · simp [setKey, hk, lookupKey, ih]

theorem lookupKey_eq_none_of_not_mem {α : Type} (m : List (Key × α)) (key : Key)
    (h : key ∉ m.map Prod.fst) : lookupKey m key = none := by
  induction m with
  | nil => rfl
  | cons hd tl ih =>
      obtain ⟨k, w⟩ := hd
      simp only [List.map_cons, List.mem_cons, not_or] at h
      simp only [lookupKey_cons, if_neg (fun hc : k = key => h.1 hc.symm)]
      exact ih h.2

@[simp] theorem lookupKey_removeKey_self {α : Type} (m : List (Key × α))
    (key : Key) (hnd : (m.map Prod.fst).Nodup) :
    lookupKey (removeKey m key) key = none := by
  induction m with
  | nil => simp [removeKey]
  | cons hd tl ih =>
      obtain ⟨k, w⟩ := hd
      simp only [List.map_cons, List.nodup_cons] at hnd
      by_cases h : k = key
      · subst h
        simp only [removeKey, if_pos rfl]
        exact lookupKey_eq_none_of_not_mem tl k hnd.1
      · simp [removeKey, h, ih hnd.2]

@[simp] theorem lookupKey_removeKey_other {α : Type} (m : List (Key × α))
    (key key' : Key) (h : key ≠ key') :
    lookupKey (removeKey m key) key' = lookupKey m key' := by
  induction m with
  | nil => simp [removeKey]
  | cons hd tl ih =>
      obtain ⟨k, w⟩ := hd
      by_cases hk : k = key
      · subst hk
        simp [removeKey, lookupKey, fun hc : k = key' => h hc]
      · simp [removeKey, hk, lookupKey, ih]

theorem mem_map_fst_setKey {α : Type} (m : List (Key × α)) (key k : Key) (v : α)
    (h : k ∈ (setKey m key v).map Prod.fst) : k ∈ m.map Prod.fst ∨ k = key := by
  induction m with
  | nil =>
      simp only [setKey, List.map_cons, List.map_nil, List.mem_singleton] at h
      exact Or.inr h
  | cons hd tl ih =>
      obtain ⟨k', w'⟩ := hd
      by_cases hk' : k' = key
      · simp only [setKey, if_pos hk', List.map_cons, List.mem_cons] at h
        simp only [List.map_cons, List.mem_cons]
        tauto
      · simp only [setKey, if_neg hk', List.map_cons, List.mem_cons] at h
        simp only [List.map_cons, List.mem_cons]
        rcases h with h | h
        · exact Or.inl (Or.inl h)
        · rcases ih h with h1 | h1
          · exact Or.inl (Or.inr h1)
          · exact Or.inr h1

theorem mem_map_fst_removeKey {α : Type} (m : List (Key × α)) (key k : Key)
    (h : k ∈ (removeKey m key).map Prod.fst) : k ∈ m.map Prod.fst := by
  induction m with
  | nil => simp [removeKey] at h
  | cons hd tl ih =>
      obtain ⟨k', w'⟩ := hd
      by_cases hk' : k' = key
      · simp only [removeKey, if_pos hk'] at h
        simp only [List.map_cons, List.mem_cons]
        exact Or.inr h
      · simp only [removeKey, if_neg hk', List.map_cons, List.mem_cons] at h ⊢
        tauto

/-- `setKey` preserves distinctness of keys. -/
theorem nodup_setKey {α : Type} (m : List (Key × α)) (key : Key) (v : α)
    (h : (m.map Prod.fst).Nodup) : ((setKey m key v).map Prod.fst).Nodup := by
  induction m with
  | nil => simp [setKey]
  | cons hd tl ih =>
      obtain ⟨k, w⟩ := hd
      simp only [List.map_cons, List.nodup_cons] at h
      by_cases hk : k = key
      · subst hk
        simpa [setKey] using h
      · simp only [setKey, if_neg hk, List.map_cons, List.nodup_cons]
        refine ⟨?_, ih h.2⟩
        intro hmem
        rcases mem_map_fst_setKey tl key k v hmem with hin | heq
        · exact h.1 hin
        · exact hk heq

/-- `removeKey` preserves distinctness of keys. -/
theorem nodup_removeKey {α : Type} (m : List (Key × α)) (key : Key)
    (h : (m.map Prod.fst).Nodup) : ((removeKey m key).map Prod.fst).Nodup := by
  induction m with
  | nil => simp [removeKey]
  | cons hd tl ih =>
      obtain ⟨k, w⟩ := hd
      simp only [List.map_cons, List.nodup_cons] at h
      by_cases hk : k = key
      · subst hk; simpa [removeKey] using h.2
      · simp only [removeKey, if_neg hk, List.map_cons, List.nodup_cons]
        exact ⟨fun hmem => h.1 (mem_map_fst_removeKey tl key k hmem), ih h.2⟩

theorem mem_of_lookupKey_eq_some {α : Type} (m : List (Key × α)) (key : Key)
    (v : α) (h : lookupKey m key = some v) : (key, v) ∈ m := by
  induction m with
  | nil => simp [lookupKey] at h
  | cons hd tl ih =>
      obtain ⟨k, w⟩ := hd
      by_cases hk : k = key
      · subst hk
        rw [lookupKey_cons, if_pos rfl] at h
        cases h
        exact List.mem_cons_self _ _
      · simp only [lookupKey_cons, if_neg hk] at h
        exact List.mem_cons_of_mem _ (ih h)

/-! ### JS array primitive lemmas -/

theorem jsIndexOf_eq_neg_one_of_not_mem {α : Type} [DecidableEq α] (l : List α)
    (x : α) (h : x ∉ l) : jsIndexOf l x = -1 := by
  have hn : l.indexOf? x = none := by
    rw [List.indexOf?_eq_none_iff]
    intro y hy hbeq
    exact h (by rwa [eq_of_beq hbeq] at hy)
  unfold jsIndexOf
  rw [hn]

theorem jsIndexOf_nonneg_of_mem {α : Type} [DecidableEq α] (l : List α)
    (x : α) (h : x ∈ l) : 0 ≤ jsIndexOf l x := by
  unfold jsIndexOf
  cases hidx : l.indexOf? x with
  | none =>
      rw [List.indexOf?_eq_none_iff] at hidx
      exact absurd (beq_self_eq_true x) (by simpa using hidx x h)
  | some i => exact Int.natCast_nonneg i

theorem not_jsIndexOf_nonneg_of_not_mem {α : Type} [DecidableEq α] (l : List α)
    (x : α) (h : x ∉ l) : ¬ 0 ≤ jsIndexOf l x := by
  rw [jsIndexOf_eq_neg_one_of_not_mem l x h]
  norm_num

/-- `splice(-1, 1)` on a nonempty array removes exactly the last element. -/
theorem jsSplice1_neg_one {α : Type} (l : List α) (h : l ≠ []) :
    jsSplice1 l (-1) = l.dropLast := by
  have hpos : 0 < l.length := List.length_pos.mpr h
  unfold jsSplice1
  simp only [if_pos (show (-1 : Int) < 0 by norm_num)]
  have hmax : (max ((l.length : Int) + -1) 0).toNat = l.length - 1 := by omega
  rw [hmax]
  have hsum : l.length - 1 + 1 = l.length := by omega
  rw [hsum, List.drop_length, List.append_nil, List.dropLast_eq_take]

/-! ### Server-side claim theorems -/

/-- C8: subscribing the same session to the same key a second time is
idempotent for the server-side subscription state — the whole
`subscribedSessions` map after the duplicate subscribe equals the one
after the first subscribe, and a fresh session appears exactly once in
the key's list after the first subscribe. -/
theorem duplicate_subscribe_idempotent {D : Type} (st : SubscribedSessions)
    (supplier : Option (Key → Session → D)) (name : String)
    (sess : Session) (key : Key) :
    (subscribeSession (subscribeSession st supplier name sess key).1
        supplier name sess key).1
      = (subscribeSession st supplier name sess key).1
    ∧ (sess ∉ (lookupKey st key).getD [] →
        ((lookupKey (subscribeSession st supplier name sess key).1 key).getD
            []).count sess = 1) := by
  by_cases hin : 0 ≤ jsIndexOf ((lookupKey st key).getD []) sess
  · have h1 : (subscribeSession st supplier name sess key).1 = st := by
      unfold subscribeSession
      rw [if_pos hin]
    constructor
    · rw [h1]
      exact h1
    · intro hmem
      exact absurd hin (not_jsIndexOf_nonneg_of_not_mem _ _ hmem)
  · have hmem : sess ∉ (lookupKey st key).getD [] := by
      intro hc
      exact hin (jsIndexOf_nonneg_of_mem _ _ hc)
    have h1 : (subscribeSession st supplier name sess key).1
        = setKey st key ((lookupKey st key).getD [] ++ [sess]) := by
      unfold subscribeSession
      rw [if_neg hin]
      cases supplier <;> rfl
    constructor
    · rw [h1]
      unfold subscribeSession
      rw [if_pos (by
        rw [lookupKey_setKey_self]
        exact jsIndexOf_nonneg_of_mem _ _ (by simp))]
    · intro _
      rw [h1, lookupKey_setKey_self]
      simp [List.count_eq_zero.mpr hmem]

/-- C9: calling the server-side unsubscribe with a session that is not
subscribed to a key holding a nonempty session list is not a no-op: the
`-1` of `indexOf` flows into `splice` unchecked and the last — i.e. most
recently appended, hence most recently subscribed — entry of the key's
list is removed (the key itself is deleted when the list had one entry). -/
theorem unsubscribe_absent_session_removes_last (st : SubscribedSessions)
    (sess : Session) (key : Key) (l : List Session)
    (hnd : (st.map Prod.fst).Nodup)
    (hl : lookupKey st key = some l) (hne : l ≠ []) (hmem : sess ∉ l) :
    lookupKey (unsubscribeSession st sess key) key
        = (if l.dropLast.isEmpty then none else some l.dropLast)
    ∧ lookupKey (unsubscribeSession st sess key) key ≠ some l := by
  have hsplice : jsSplice1 l (jsIndexOf l sess) = l.dropLast := by
    rw [jsIndexOf_eq_neg_one_of_not_mem l sess hmem]
    exact jsSplice1_neg_one l hne
  have hres : lookupKey (unsubscribeSession st sess key) key
      = (if l.dropLast.isEmpty then none else some l.dropLast) := by
    unfold unsubscribeSession
    rw [hl]
    simp only [hsplice]
    by_cases hemp : l.dropLast.isEmpty
    · rw [if_pos (by rwa [List.length_eq_zero, ← List.isEmpty_iff]), if_pos hemp]
      exact lookupKey_removeKey_self st key hnd
    · rw [if_neg (by rwa [List.length_eq_zero, ← List.isEmpty_iff]), if_neg hemp]
      exact lookupKey_setKey_self st key l.dropLast
  refine ⟨hres, ?_⟩
  rw [hres]
  have hlen : l.dropLast.length < l.length := by
    rw [List.length_dropLast]
    have := List.length_pos.mpr hne
    omega
  by_cases hemp : l.dropLast.isEmpty
  · rw [if_pos hemp]
    exact fun hc => Option.noConfusion hc
  · rw [if_neg hemp]
    intro hc
    have : l.dropLast = l := Option.some.inj hc
    rw [this] at hlen
    exact lt_irrefl _ hlen

/-- C10: triggering a key with no supplied data and `n` subscribed
sessions invokes the supplier once per session, each with that session's
context, sending each session its own supplier result; with supplied
data, the supplier is invoked zero times and every session is sent the
same supplied value. -/
theorem trigger_per_session_supplier {D : Type} (st : SubscribedSessions)
    (supplier : Key → Session → D) (name : String) (key : Key) :
    trigger st supplier name key none
      = (((lookupKey st key).getD []).map
            (fun s => ⟨s, name, key, supplier key s⟩),
         ((lookupKey st key).getD []).length)
    ∧ ∀ d : D, trigger st supplier name key (some d)
      = (((lookupKey st key).getD []).map (fun s => ⟨s, name, key, d⟩), 0) := by
  unfold trigger
  constructor
  · induction (lookupKey st key).getD [] with
    | nil => rfl
    | cons sess rest ih => simp [triggerLoop, ih, Nat.add_comm]
  · intro d
    induction (lookupKey st key).getD [] with
    | nil => rfl
    | cons sess rest ih => simp [triggerLoop, ih]

/-! ### Client-side registry lemmas -/

/-- When the registry's unsubscribe reports `true`, its record for the key
is gone. -/
theorem regUnsubscribe_true_lookup_none {V : Type} (reg : Registry V) (k : Key)
    (c : ConsumerId) (hnd : (reg.records.map Prod.fst).Nodup)
    (h : (regUnsubscribe reg k c).2 = true) :
    lookupKey (regUnsubscribe reg k c).1.records k = none := by
  cases hl : lookupKey reg.records k with
  | none =>
      unfold regUnsubscribe at h
      rw [hl] at h
      simp at h
  | some rec =>
      have hstep : regUnsubscribe reg k c
          = if (removeOneConsumer rec.consumers c).isEmpty
            then (⟨removeKey reg.records k, reg.cache⟩, true)
            else (⟨setKey reg.records k
                    ⟨removeOneConsumer rec.consumers c, rec.lastValue⟩,
                  reg.cache⟩, false) := by
        unfold regUnsubscribe
        rw [hl]
      rw [hstep] at h ⊢
      by_cases he : (removeOneConsumer rec.consumers c).isEmpty = true
      · rw [if_pos he]
        exact lookupKey_removeKey_self _ _ hnd
      · rw [if_neg he] at h
        simp at h

/-- `consume` touches only its own key's record. -/
theorem regConsume_lookup_other {V : Type} (reg : Registry V) (k k' : Key)
    (d : V) (h : k ≠ k') :
    lookupKey (regConsume reg k d).1.records k' = lookupKey reg.records k' := by
  unfold regConsume
  cases hl : lookupKey reg.records k with
  | none => rfl
  | some rec => exact lookupKey_setKey_other _ _ _ _ h

/-- `consume` on a present record: updated record and delivered events. -/
theorem regConsume_lookup_self {V : Type} (reg : Registry V) (k : Key) (d : V)
    (rec : SubRecord V) (hl : lookupKey reg.records k = some rec) :
    (regConsume reg k d).1.records
        = setKey reg.records k ⟨rec.consumers, some d⟩
    ∧ (regConsume reg k d).2
        = rec.consumers.map (fun c => Event.deliver c d) := by
  unfold regConsume
  rw [hl]
  exact ⟨rfl, rfl⟩

/-- The registry's unsubscribe touches only its own key's record. -/
theorem regUnsubscribe_lookup_other {V : Type} (reg : Registry V) (k k' : Key)
    (c : ConsumerId) (h : k ≠ k') :
    lookupKey (regUnsubscribe reg k c).1.records k' = lookupKey reg.records k' := by
  unfold regUnsubscribe
  cases hl : lookupKey reg.records k with
  | none => rfl
  | some rec =>
      dsimp only
      by_cases he : (removeOneConsumer rec.consumers c).isEmpty = true
      · rw [if_pos he]
        exact lookupKey_removeKey_other _ _ _ h
      · rw [if_neg he]
        exact lookupKey_setKey_other _ _ _ _ h

theorem nodup_regConsume {V : Type} (reg : Registry V) (k : Key) (d : V)
    (h : (reg.records.map Prod.fst).Nodup) :
    ((regConsume reg k d).1.records.map Prod.fst).Nodup := by
  unfold regConsume
  cases hl : lookupKey reg.records k with
  | none => exact h
  | some rec => exact nodup_setKey _ _ _ h

theorem nodup_regUnsubscribe {V : Type} (reg : Registry V) (k : Key)
    (c : ConsumerId) (h : (reg.records.map Prod.fst).Nodup) :
    ((regUnsubscribe reg k c).1.records.map Prod.fst).Nodup := by
  unfold regUnsubscribe
  cases hl : lookupKey reg.records k with
  | none => exact h
  | some rec =>
      dsimp only
      by_cases he : (removeOneConsumer rec.consumers c).isEmpty = true
      · rw [if_pos he]
        exact nodup_removeKey _ _ h
      · rw [if_neg he]
        exact nodup_setKey _ _ _ h

/-- Detaching consumers of one key does not touch another key's record. -/
theorem unsubAll_lookup_other {V : Type} (k k' : Key) (h : k ≠ k')
    (cs : List ConsumerId) :
    ∀ reg : Registry V,
      lookupKey (unsubAllConsumers reg k cs).records k'
        = lookupKey reg.records k' := by
  induction cs with
  | nil => intro reg; rfl
  | cons c cs ih =>
      intro reg
      show lookupKey (unsubAllConsumers (regUnsubscribe reg k c).1 k cs).records k'
          = lookupKey reg.records k'
      rw [ih]
      exact regUnsubscribe_lookup_other reg k k' c h

theorem nodup_unsubAll {V : Type} (k : Key) (cs : List ConsumerId) :
    ∀ reg : Registry V, (reg.records.map Prod.fst).Nodup →
      ((unsubAllConsumers reg k cs).records.map Prod.fst).Nodup := by
  induction cs with
  | nil => intro reg h; exact h
  | cons c cs ih =>
      intro reg h
      exact ih _ (nodup_regUnsubscribe reg k c h)

/-- Detaching, one registry-unsubscribe per snapshot consumer, the exact
current consumer list of a key empties and removes its record (a record
with an empty snapshot stays as it was). -/
theorem unsubAll_lookup_self {V : Type} (k : Key) (cs : List ConsumerId) :
    ∀ (reg : Registry V) (lv : Option V),
      (reg.records.map Prod.fst).Nodup →
      lookupKey reg.records k = some ⟨cs, lv⟩ →
      lookupKey (unsubAllConsumers reg k cs).records k
        = if cs.isEmpty then some ⟨cs, lv⟩ else none := by
  induction cs with
  | nil =>
      intro reg lv _ hl
      simpa using hl
  | cons c cs ih =>
      intro reg lv hnd hl
      simp only [List.isEmpty_cons, Bool.false_eq_true, if_false]
      have hrm : removeOneConsumer (c :: cs) c = cs := by
        simp [removeOneConsumer]
      have hstep : regUnsubscribe reg k c
          = if cs.isEmpty then (⟨removeKey reg.records k, reg.cache⟩, true)
            else (⟨setKey reg.records k ⟨cs, lv⟩, reg.cache⟩, false) := by
        unfold regUnsubscribe
        rw [hl]
        dsimp only
        rw [hrm]
      show lookupKey (unsubAllConsumers (regUnsubscribe reg k c).1 k cs).records k
          = none
      rw [hstep]
      by_cases he : cs.isEmpty = true
      · rw [if_pos he]
        have hcs : cs = [] := List.isEmpty_iff.mp he
        subst hcs
        exact lookupKey_removeKey_self _ _ hnd
      · rw [if_neg he]
        have hnd1 : ((setKey reg.records k
            (⟨cs, lv⟩ : SubRecord V)).map Prod.fst).Nodup :=
          nodup_setKey _ _ _ hnd
        have hres := ih ⟨setKey reg.records k ⟨cs, lv⟩, reg.cache⟩ lv hnd1
          (lookupKey_setKey_self _ _ _)
        rw [hres, if_neg he]

/-- One unfolding of `resubLoop` when the head key's HTTP subscribe
succeeds. -/
theorem resubLoop_cons_ok {V : Type} (outcomes : Key → Except Err V)
    (reg : Registry V) (k' : Key) (cs' : List ConsumerId)
    (rest : List (Key × List ConsumerId)) (v : V)
    (ho : outcomes k' = .ok v) :
    resubLoop outcomes reg ((k', cs') :: rest)
      = ((resubLoop outcomes (regConsume reg k' v).1 rest).1,
         (Event.httpSubscribe k' :: (regConsume reg k' v).2)
           ++ (resubLoop outcomes (regConsume reg k' v).1 rest).2) := by
  rw [resubLoop, ho]

/-- One unfolding of `resubLoop` when the head key's HTTP subscribe
fails. -/
theorem resubLoop_cons_err {V : Type} (outcomes : Key → Except Err V)
    (reg : Registry V) (k' : Key) (cs' : List ConsumerId)
    (rest : List (Key × List ConsumerId)) (e : Err)
    (ho : outcomes k' = .error e) :
    resubLoop outcomes reg ((k', cs') :: rest)
      = ((resubLoop outcomes (unsubAllConsumers reg k' cs') rest).1,
         Event.httpSubscribe k'
           :: (resubLoop outcomes (unsubAllConsumers reg k' cs') rest).2) := by
  rw [resubLoop, ho]
  exact rfl

/-- `resubLoop` does not touch the record of a key outside its item
list. -/
theorem resubLoop_lookup_not_mem {V : Type} (outcomes : Key → Except Err V)
    (k : Key) (items : List (Key × List ConsumerId)) :
    ∀ reg : Registry V, k ∉ items.map Prod.fst →
      lookupKey (resubLoop outcomes reg items).1.records k
        = lookupKey reg.records k := by
  induction items with
  | nil => intro reg _; rfl
  | cons item rest ih =>
      obtain ⟨k', cs'⟩ := item
      intro reg hk
      simp only [List.map_cons, List.mem_cons, not_or] at hk
      have hne : k' ≠ k := fun hc => hk.1 hc.symm
      cases ho : outcomes k' with
      | ok v =>
          rw [resubLoop_cons_ok outcomes reg k' cs' rest v ho]
          dsimp only
          rw [ih _ hk.2]
          exact regConsume_lookup_other reg k' k v hne
      | error e =>
          rw [resubLoop_cons_err outcomes reg k' cs' rest e ho]
          dsimp only
          rw [ih _ hk.2]
          exact unsubAll_lookup_other k' k hne cs' reg

/-- The per-key effects of the resubscribe loop over a snapshot whose
keys are distinct. -/
theorem resubLoop_spec {V : Type} (outcomes : Key → Except Err V) (k : Key)
    (items : List (Key × List ConsumerId)) :
    ∀ (reg : Registry V) (cs : List ConsumerId) (rec : SubRecord V),
      (items.map Prod.fst).Nodup →
      (reg.records.map Prod.fst).Nodup →
      (k, cs) ∈ items →
      lookupKey reg.records k = some rec →
      rec.consumers = cs →
      Event.httpSubscribe k ∈ (resubLoop outcomes reg items).2
      ∧ (∀ v, outcomes k = .ok v →
          lookupKey (resubLoop outcomes reg items).1.records k
              = some ⟨cs, some v⟩
          ∧ ∀ c ∈ cs, Event.deliver c v ∈ (resubLoop outcomes reg items).2)
      ∧ (∀ e, outcomes k = .error e →
          lookupKey (resubLoop outcomes reg items).1.records k
              = if cs.isEmpty then some rec else none) := by
  induction items with
  | nil =>
      intro reg cs rec _ _ hmem
      simp at hmem
  | cons item rest ih =>
      obtain ⟨k', cs'⟩ := item
      intro reg cs rec hndI hndR hmem hrec hcons
      simp only [List.map_cons, List.nodup_cons] at hndI
      rcases List.mem_cons.mp hmem with heq | hmem'
      · -- the head item is the key under scrutiny
        injection heq with hk hcs
        subst hk
        subst hcs
        cases ho : outcomes k with
        | ok v =>
            obtain ⟨hrecords, hevents⟩ := regConsume_lookup_self reg k v rec hrec
            have hlook1 : lookupKey (regConsume reg k v).1.records k
                = some ⟨cs, some v⟩ := by
              rw [hrecords, hcons]
              exact lookupKey_setKey_self _ _ _
            have hframe := resubLoop_lookup_not_mem outcomes k rest
              (regConsume reg k v).1 hndI.1
            rw [resubLoop_cons_ok outcomes reg k cs rest v ho]
            dsimp only
            refine ⟨by simp, ?_, ?_⟩
            · intro v0 hv0
              injection hv0 with hv0
              subst hv0
              refine ⟨by rw [hframe, hlook1], ?_⟩
              intro c hc
              have : Event.deliver c v ∈ (regConsume reg k v).2 := by
                rw [hevents, hcons]
                exact List.mem_map_of_mem _ hc
              simp [this]
            · intro e he
              exact Except.noConfusion he
        | error e =>
            have hrec' : lookupKey reg.records k
                = some ⟨cs, rec.lastValue⟩ := by
              rw [← hcons]
              exact hrec
            have hlook1 := unsubAll_lookup_self k cs reg rec.lastValue hndR hrec'
            have hframe := resubLoop_lookup_not_mem outcomes k rest
              (unsubAllConsumers reg k cs) hndI.1
            rw [resubLoop_cons_err outcomes reg k cs rest e ho]
            dsimp only
            refine ⟨List.mem_cons_self _ _, ?_, ?_⟩
            · intro v0 hv0
              exact Except.noConfusion hv0
            · intro e0 _
              rw [hframe, hlook1, ← hcons]
      · -- the head item concerns a different key
        have hkmem : k ∈ rest.map Prod.fst := by
          exact List.mem_map_of_mem Prod.fst hmem'
        have hne : k' ≠ k := fun hc => hndI.1 (hc ▸ hkmem)
        cases ho : outcomes k' with
        | ok v =>
            have hrec1 : lookupKey (regConsume reg k' v).1.records k = some rec := by
              rw [regConsume_lookup_other reg k' k v hne]
              exact hrec
            obtain ⟨ha, hb, hc⟩ := ih (regConsume reg k' v).1 cs rec hndI.2
              (nodup_regConsume reg k' v hndR) hmem' hrec1 hcons
            rw [resubLoop_cons_ok outcomes reg k' cs' rest v ho]
            dsimp only
            refine ⟨List.mem_append_right _ ha, ?_, ?_⟩
            · intro v0 hv0
              obtain ⟨h1, h2⟩ := hb v0 hv0
              exact ⟨h1, fun c hcmem => List.mem_append_right _ (h2 c hcmem)⟩
            · intro e0 he0
              exact hc e0 he0
        | error e =>
            have hrec1 : lookupKey (unsubAllConsumers reg k' cs').records k
                = some rec := by
              rw [unsubAll_lookup_other k' k hne cs' reg]
              exact hrec
            obtain ⟨ha, hb, hc⟩ := ih (unsubAllConsumers reg k' cs') cs rec hndI.2
              (nodup_unsubAll k' cs' reg hndR) hmem' hrec1 hcons
            rw [resubLoop_cons_err outcomes reg k' cs' rest e ho]
            dsimp only
            refine ⟨List.mem_cons_of_mem _ ha, ?_, ?_⟩
            · intro v0 hv0
              obtain ⟨h1, h2⟩ := hb v0 hv0
              exact ⟨h1, fun c hcmem => List.mem_cons_of_mem _ (h2 c hcmem)⟩
            · intro e0 he0
              exact hc e0 he0

/-! ### Client-side claim theorems (subscribe / unsubscribe / close) -/

/-- C1: when the HTTP subscribe fails, the subscription registry is left
entirely unchanged (in particular no record and no consumer is added for
the key) and the error is propagated to the caller of `subscribe`. -/
theorem subscribe_http_failure_no_record {V : Type} (st : ClientState V)
    (pushEnabled : Bool) (connectResult : Except Err Unit) (e : Err)
    (k : Key) (c : ConsumerId) :
    (clientSubscribe st pushEnabled connectResult (.error e) k c).1.registry
      = st.registry
    ∧ (clientSubscribe st pushEnabled connectResult (.error e) k c).2.2
      = .error e := by
  unfold clientSubscribe
  exact ⟨rfl, rfl⟩

/-- C4: for a subscribe issued with push delivery enabled while the socket
is disconnected, a failure of the initiated `connect()` is not propagated:
the subscribe still resolves successfully and the consumer still observes
the HTTP-obtained initial value (the connect was initiated nonetheless). -/
theorem subscribe_connect_failure_not_propagated {V : Type}
    (st : ClientState V) (ce : Err) (v : V) (k : Key) (c : ConsumerId)
    (_hdis : st.connection = ConnState.disconnected) :
    (clientSubscribe st true (.error ce) (.ok v) k c).2.2 = .ok ()
    ∧ Event.deliver c v ∈ (clientSubscribe st true (.error ce) (.ok v) k c).2.1
    ∧ Event.connectInitiated
        ∈ (clientSubscribe st true (.error ce) (.ok v) k c).2.1 := by
  refine ⟨rfl, ?_, ?_⟩ <;>
    · unfold clientSubscribe regSubscribe
      cases getCached st.registry k <;> simp

/-- C5: when `getCached` returns a value, the consumer observes it as the
very first delivery of the subscribe flow, strictly before the
HTTP-obtained initial value; a pushed frame can reach this consumer only
through `consume` after the registry registration, which happens later
still. -/
theorem cached_value_delivered_first {V : Type} (st : ClientState V)
    (pushEnabled : Bool) (connectResult : Except Err Unit) (v v' : V)
    (k : Key) (c : ConsumerId) (hc : getCached st.registry k = some v) :
    ∃ rest, (clientSubscribe st pushEnabled connectResult (.ok v') k c).2.1
        = Event.deliver c v :: rest
      ∧ Event.deliver c v' ∈ rest := by
  unfold clientSubscribe regSubscribe
  rw [hc]
  cases pushEnabled <;> exact ⟨_, rfl, by simp⟩

/-- C6: when the HTTP leg of an unsubscribe fails, the failure is logged
and swallowed — `unsubscribe` still resolves successfully — and the
registry holds exactly the state the registry's unsubscribe produced
before the HTTP request. -/
theorem unsubscribe_http_error_swallowed {V : Type} (st : ClientState V)
    (e : Err) (k : Key) (c : ConsumerId)
    (hleft : (regUnsubscribe st.registry k c).2 = true) :
    (clientUnsubscribe st (.error e) k c).2.2 = .ok ()
    ∧ Event.loggedError ∈ (clientUnsubscribe st (.error e) k c).2.1
    ∧ (clientUnsubscribe st (.error e) k c).1.registry
        = (regUnsubscribe st.registry k c).1 := by
  unfold clientUnsubscribe
  rcases hr : regUnsubscribe st.registry k c with ⟨reg', b⟩
  rw [hr] at hleft
  cases hleft
  simp [httpUnsubscribeEvents]

/-- C7: `close()` moves the connection to the terminal closed state and
leaves the registry untouched: every key, its consumers and its cached
`lastValue` survive verbatim. -/
theorem close_leaves_registry_intact {V : Type} (st : ClientState V) :
    (clientClose st).registry = st.registry
    ∧ (clientClose st).connection = ConnState.closed
    ∧ ∀ k : Key, lookupKey (clientClose st).registry.records k
        = lookupKey st.registry.records k :=
  ⟨rfl, rfl, fun _ => rfl⟩

/-- C2: an HTTP unsubscribe is issued if and only if the registry's
unsubscribe returned `true`; and when it does return `true`, no consumers
remain for that key (its record is gone). -/
theorem unsubscribe_http_iff_no_consumers_left {V : Type} (st : ClientState V)
    (httpResult : Except Err Unit) (k : Key) (c : ConsumerId)
    (hnd : (st.registry.records.map Prod.fst).Nodup) :
    (Event.httpUnsubscribe k ∈ (clientUnsubscribe st httpResult k c).2.1
      ↔ (regUnsubscribe st.registry k c).2 = true)
    ∧ ((regUnsubscribe st.registry k c).2 = true →
        lookupKey (clientUnsubscribe st httpResult k c).1.registry.records k
          = none) := by
  have hlook := fun h => regUnsubscribe_true_lookup_none st.registry k c hnd h
  unfold clientUnsubscribe
  rcases hr : regUnsubscribe st.registry k c with ⟨reg', b⟩
  rw [hr] at hlook
  cases b with
  | false => simp
  | true =>
      refine ⟨?_, fun _ => hlook rfl⟩
      cases httpResult <;> simp [httpUnsubscribeEvents]

/-- C3: for every key present in the registry when `resubscribe` runs, an
HTTP subscribe is issued for that key; on success the returned value is
fed through the registry's `consume` (the key's record holds the new
value and every consumer observes it), and on failure every current
consumer of that key is detached via the registry's unsubscribe (its
record is gone; a record with an empty consumer list, unreachable through
the public operations, would stay as it was). -/
theorem resubscribe_key_effects {V : Type} (st : ClientState V)
    (outcomes : Key → Except Err V) (k : Key) (rec : SubRecord V)
    (hnd : (st.registry.records.map Prod.fst).Nodup)
    (hrec : lookupKey st.registry.records k = some rec) :
    Event.httpSubscribe k ∈ (clientResubscribe st outcomes).2
    ∧ (∀ v, outcomes k = .ok v →
        lookupKey (clientResubscribe st outcomes).1.registry.records k
          = some ⟨rec.consumers, some v⟩
        ∧ ∀ c ∈ rec.consumers,
            Event.deliver c v ∈ (clientResubscribe st outcomes).2)
    ∧ (∀ e, outcomes k = .error e →
        lookupKey (clientResubscribe st outcomes).1.registry.records k
          = if rec.consumers.isEmpty then some rec else none) := by
  have hmem : (k, rec.consumers) ∈ getAllSubscriptions st.registry := by
    unfold getAllSubscriptions
    exact List.mem_map_of_mem _ (mem_of_lookupKey_eq_some _ _ _ hrec)
  have hndI : ((getAllSubscriptions st.registry).map Prod.fst).Nodup := by
    unfold getAllSubscriptions
    rw [List.map_map]
    exact hnd
  exact resubLoop_spec outcomes k (getAllSubscriptions st.registry)
    st.registry rec.consumers rec hndI hnd hmem hrec rfl

/-! ### Witnesses -/

/-- Witness for C8: a fresh session joining a one-session key; the
duplicate subscribe changes nothing and the session is listed once. -/
theorem duplicate_subscribe_idempotent_witness :
    (subscribeSession (subscribeSession [("k", [1])]
        (none : Option (Key → Session → Nat)) "t" 2 "k").1
        (none : Option (Key → Session → Nat)) "t" 2 "k").1
      = (subscribeSession [("k", [1])]
          (none : Option (Key → Session → Nat)) "t" 2 "k").1
    ∧ ((lookupKey (subscribeSession [("k", [1])]
          (none : Option (Key → Session → Nat)) "t" 2 "k").1 "k").getD
        []).count 2 = 1 :=
  ⟨(duplicate_subscribe_idempotent [("k", [1])] none "t" 2 "k").1,
   (duplicate_subscribe_idempotent [("k", [1])] none "t" 2 "k").2 (by decide)⟩

/-- Witness for C9: unsubscribing absent session `3` from `[1, 2]` leaves
`[1]` — the most recently subscribed session `2` was removed. -/
theorem unsubscribe_absent_session_removes_last_witness :
    lookupKey (unsubscribeSession [("k", [1, 2])] 3 "k") "k"
        = (if ([1, 2] : List Session).dropLast.isEmpty then none
           else some ([1, 2] : List Session).dropLast)
    ∧ lookupKey (unsubscribeSession [("k", [1, 2])] 3 "k") "k" ≠ some [1, 2] :=
  unsubscribe_absent_session_removes_last [("k", [1, 2])] 3 "k" [1, 2]
    (by decide) (by decide) (by decide) (by decide)

/-- Witness for C2: dropping the sole consumer issues the HTTP
unsubscribe and leaves no record. -/
theorem unsubscribe_http_iff_no_consumers_left_witness :
    (Event.httpUnsubscribe "k" ∈
        (clientUnsubscribe (⟨⟨[("k", ⟨[5], none⟩)], []⟩,
          ConnState.connected⟩ : ClientState Nat) (.ok ()) "k" 5).2.1
      ↔ (regUnsubscribe (⟨[("k", ⟨[5], none⟩)], []⟩ : Registry Nat)
          "k" 5).2 = true)
    ∧ ((regUnsubscribe (⟨[("k", ⟨[5], none⟩)], []⟩ : Registry Nat)
          "k" 5).2 = true →
        lookupKey (clientUnsubscribe (⟨⟨[("k", ⟨[5], none⟩)], []⟩,
          ConnState.connected⟩ : ClientState Nat)
            (.ok ()) "k" 5).1.registry.records "k" = none) :=
  unsubscribe_http_iff_no_consumers_left
    (⟨⟨[("k", ⟨[5], none⟩)], []⟩, ConnState.connected⟩ : ClientState Nat)
    (.ok ()) "k" 5 (by decide)

/-- Witness for C3: one key `"a"` with one consumer; the resubscribe pass
issues the HTTP subscribe and feeds the fresh value through consume. -/
theorem resubscribe_key_effects_witness :
    Event.httpSubscribe "a" ∈
        (clientResubscribe (⟨⟨[("a", ⟨[1], none⟩)], []⟩,
          ConnState.connected⟩ : ClientState Nat) (fun _ => Except.ok 7)).2
    ∧ lookupKey (clientResubscribe (⟨⟨[("a", ⟨[1], none⟩)], []⟩,
          ConnState.connected⟩ : ClientState Nat)
          (fun _ => Except.ok 7)).1.registry.records "a" = some ⟨[1], some 7⟩
    ∧ Event.deliver 1 7 ∈
        (clientResubscribe (⟨⟨[("a", ⟨[1], none⟩)], []⟩,
          ConnState.connected⟩ : ClientState Nat) (fun _ => Except.ok 7)).2 := by
  have h := resubscribe_key_effects
    (⟨⟨[("a", ⟨[1], none⟩)], []⟩, ConnState.connected⟩ : ClientState Nat)
    (fun _ => Except.ok 7) "a" ⟨[1], none⟩ (by decide) (by decide)
  exact ⟨h.1, (h.2.1 7 rfl).1, (h.2.1 7 rfl).2 1 (by decide)⟩

/-- Witness for C4: push enabled, socket down, connect fails, HTTP
succeeds — the subscribe resolves and the consumer sees the value. -/
theorem subscribe_connect_failure_not_propagated_witness :
    (clientSubscribe (⟨⟨[], []⟩, ConnState.disconnected⟩ : ClientState Nat)
        true (.error 1) (.ok 42) "k" 0).2.2 = .ok ()
    ∧ Event.deliver 0 42 ∈
        (clientSubscribe (⟨⟨[], []⟩, ConnState.disconnected⟩ :
          ClientState Nat) true (.error 1) (.ok 42) "k" 0).2.1
    ∧ Event.connectInitiated ∈
        (clientSubscribe (⟨⟨[], []⟩, ConnState.disconnected⟩ :
          ClientState Nat) true (.error 1) (.ok 42) "k" 0).2.1 :=
  subscribe_connect_failure_not_propagated
    (⟨⟨[], []⟩, ConnState.disconnected⟩ : ClientState Nat) 1 42 "k" 0 rfl

/-- Witness for C5: a cached `7` is delivered first; the fresh `9`
arrives later in the same flow. -/
theorem cached_value_delivered_first_witness :
    ((clientSubscribe (⟨⟨[], [("k", 7)]⟩, ConnState.connected⟩ :
        ClientState Nat) false (.ok ()) (.ok 9) "k" 0).2.1).head?
      = some (Event.deliver 0 7)
    ∧ Event.deliver 0 9 ∈
        ((clientSubscribe (⟨⟨[], [("k", 7)]⟩, ConnState.connected⟩ :
          ClientState Nat) false (.ok ()) (.ok 9) "k" 0).2.1).tail := by
  obtain ⟨rest, h1, h2⟩ := cached_value_delivered_first
    (⟨⟨[], [("k", 7)]⟩, ConnState.connected⟩ : ClientState Nat)
    false (.ok ()) 7 9 "k" 0 (by decide)
  rw [h1]
  exact ⟨rfl, h2⟩

/-- Witness for C6: the HTTP leg fails after the sole consumer was
dropped; the unsubscribe still resolves and the error is only logged. -/
theorem unsubscribe_http_error_swallowed_witness :
    (clientUnsubscribe (⟨⟨[("k", ⟨[5], none⟩)], []⟩,
        ConnState.connected⟩ : ClientState Nat) (.error 1) "k" 5).2.2 = .ok ()
    ∧ Event.loggedError ∈
        (clientUnsubscribe (⟨⟨[("k", ⟨[5], none⟩)], []⟩,
          ConnState.connected⟩ : ClientState Nat) (.error 1) "k" 5).2.1
    ∧ (clientUnsubscribe (⟨⟨[("k", ⟨[5], none⟩)], []⟩,
          ConnState.connected⟩ : ClientState Nat) (.error 1) "k" 5).1.registry
        = (regUnsubscribe (⟨[("k", ⟨[5], none⟩)], []⟩ : Registry Nat) "k" 5).1 :=
  unsubscribe_http_error_swallowed
    (⟨⟨[("k", ⟨[5], none⟩)], []⟩, ConnState.connected⟩ : ClientState Nat)
    1 "k" 5 (by decide)

end PushRpc
